import Mathlib

/-!
Verification of tools/perf/scripts/python/export-to-postgresql.py.

The script converts perf trace events into PostgreSQL tables.  Per-table
encoder functions (`evsel_table`, `machine_table`, ..., `sample_table`)
serialize each row with Python's `struct.pack` into per-table staging files
that are later bulk-copied into the database with `COPY ... (FORMAT binary)`,
after which primary keys, foreign keys and one index are added.

The embedding below models bytes as `List Nat` (each element a byte value),
`struct.pack` fixed-width big-endian encodings as explicit byte lists
(signed values are reduced modulo 2^(8*w), the two's-complement image), and
the script's global mutable state (argument flags, staging files, the
unhandled-event counter) as explicit parameters and state records.
-/

namespace PerfExport

/-- Big-endian byte list of width `w` for a natural number (least significant
byte last); higher bits beyond `w` bytes are dropped, as `struct.pack`
does for the reduced value. -/
def natBE : Nat → Nat → List Nat
  | 0, _ => []
  | w + 1, n => (n / 256 ^ w) % 256 :: natBE w n

/-- Big-endian value of a byte list (inverse of `natBE` on in-range input). -/
def beVal (bs : List Nat) : Nat := bs.foldl (fun a b => 256 * a + b) 0

/-- Two's-complement big-endian encoding of a (possibly negative) integer in
`w` bytes: the image of Python `struct.pack` with a fixed-width format code
(`q` for w=8, `i` for w=4, `B` for w=1), with out-of-range values reduced
modulo 2^(8*w). -/
def packInt (w : Nat) (v : Int) : List Nat := natBE w (v % (2 ^ (8 * w))).toNat

/-- The 16-bit big-endian field-count header (`struct.pack "!h"`). -/
def packU16 (n : Nat) : List Nat := natBE 2 n

/-- The 32-bit big-endian byte-length header written before each field
(`struct.pack "!i"` applied to the field width). -/
def lenHdr (n : Nat) : List Nat := natBE 4 n

/-- A fixed-width integer field: 32-bit length header, then `w` content
bytes (the source packs e.g. `8, value` for a bigint column). -/
def fieldI (w : Nat) (v : Int) : List Nat := lenHdr w ++ packInt w v

/-- A text field: 32-bit length header holding the string's byte length,
then the string bytes (the source packs `n, s` with `n = len(s)`). -/
def fieldS (s : List Nat) : List Nat := lenHdr s.length ++ s

/-- Byte values of a Lean string literal (the Python 2 `str` bytes). -/
def strBytes (s : String) : List Nat := s.toList.map Char.toNat

/-- The tables created by the script. -/
inductive Table where
  | selected_events
  | machines
  | threads
  | comms
  | comm_threads
  | dsos
  | symbols
  | branch_types
  | samples
  | call_paths
  | calls
deriving DecidableEq

/-- The run configuration fixed by the command line: database name, the
`branches` flag (columns variant), and the `calls` / `callchains` flags
(`perf_db_export_calls` / `perf_db_export_callchains`). -/
structure Config where
  dbname : String
  branches : Bool
  exportCalls : Bool
  exportCallchains : Bool
deriving DecidableEq

/-- Source line 493: `file_header = struct.pack("!11sii", "PGCOPY\n\377\r\n\0", 0, 0)`.
The 11 magic bytes are the PGCOPY signature. -/
def pgcopy_magic : List Nat := [80, 71, 67, 79, 80, 89, 10, 255, 13, 10, 0]

/-- The 19-byte file header written when each staging file is opened. -/
def file_header : List Nat := pgcopy_magic ++ packInt 4 0 ++ packInt 4 0

/-- Source line 494: `file_trailer = "\377\377"`, appended when a staging
file is sealed. -/
def file_trailer : List Nat := [255, 255]

/-- Source lines 658-662: `evsel_table` packs `"!hiqi{n}s"` with values
`2, 8, evsel_id, n, evsel_name`. -/
def evsel_table (evsel_id : Int) (evsel_name : List Nat) : List Nat :=
  packU16 2 ++ fieldI 8 evsel_id ++ fieldS evsel_name

/-- Source lines 664-668: `machine_table` packs `"!hiqiii{n}s"` with values
`3, 8, machine_id, 4, pid, n, root_dir`. -/
def machine_table (machine_id : Int) (pid : Int) (root_dir : List Nat) : List Nat :=
  packU16 3 ++ fieldI 8 machine_id ++ fieldI 4 pid ++ fieldS root_dir

/-- Source lines 670-672: `thread_table` packs `"!hiqiqiqiiii"` with values
`5, 8, thread_id, 8, machine_id, 8, process_id, 4, pid, 4, tid`. -/
def thread_table (thread_id machine_id process_id pid tid : Int) : List Nat :=
  packU16 5 ++ fieldI 8 thread_id ++ fieldI 8 machine_id ++ fieldI 8 process_id ++
    fieldI 4 pid ++ fieldI 4 tid

/-- Source lines 674-678: `comm_table` packs `"!hiqi{n}s"` with values
`2, 8, comm_id, n, comm_str`. -/
def comm_table (comm_id : Int) (comm_str : List Nat) : List Nat :=
  packU16 2 ++ fieldI 8 comm_id ++ fieldS comm_str

/-- Source lines 680-683: `comm_thread_table` packs `"!hiqiqiq"` with values
`3, 8, comm_thread_id, 8, comm_id, 8, thread_id`. -/
def comm_thread_table (comm_thread_id comm_id thread_id : Int) : List Nat :=
  packU16 3 ++ fieldI 8 comm_thread_id ++ fieldI 8 comm_id ++ fieldI 8 thread_id

/-- Source lines 685-691: `dso_table` packs `"!hiqiqi{n1}si{n2}si{n3}s"` with
values `5, 8, dso_id, 8, machine_id, n1, short_name, n2, long_name, n3, build_id`. -/
def dso_table (dso_id machine_id : Int) (short_name long_name build_id : List Nat) : List Nat :=
  packU16 5 ++ fieldI 8 dso_id ++ fieldI 8 machine_id ++ fieldS short_name ++
    fieldS long_name ++ fieldS build_id

/-- Source lines 693-697: `symbol_table` packs `"!hiqiqiqiqiii{n}s"` with values
`6, 8, symbol_id, 8, dso_id, 8, sym_start, 8, sym_end, 4, binding, n, symbol_name`. -/
def symbol_table (symbol_id dso_id sym_start sym_end binding : Int)
    (symbol_name : List Nat) : List Nat :=
  packU16 6 ++ fieldI 8 symbol_id ++ fieldI 8 dso_id ++ fieldI 8 sym_start ++
    fieldI 8 sym_end ++ fieldI 4 binding ++ fieldS symbol_name

/-- Source lines 699-703: `branch_type_table` packs `"!hiii{n}s"` with values
`2, 4, branch_type, n, name`. -/
def branch_type_table (branch_type : Int) (name : List Nat) : List Nat :=
  packU16 2 ++ fieldI 4 branch_type ++ fieldS name

/-- Source lines 705-710: `sample_table` takes 22 named positional parameters
(plus ignored `*x`); a call with fewer than 22 arguments raises `TypeError`
(modelled as `none`) before anything is written.  Under `branches` it packs
`"!hiqiqiqiqiqiqiqiqiqiqiiiqiqiqiqiiiBiq"` with field count 18, dropping
`period`, `weight`, `transaction` and `data_src`; otherwise it packs all 22
fields with field count 22.  `in_tx` is packed as one byte (`B`). -/
def sample_table (branches : Bool) : List Int → Option (List Nat)
  | sample_id :: evsel_id :: machine_id :: thread_id :: comm_id :: dso_id :: symbol_id ::
      sym_offset :: ip :: time :: cpu :: to_dso_id :: to_symbol_id :: to_sym_offset ::
      to_ip :: period :: weight :: transaction_ :: data_src :: branch_type :: in_tx ::
      call_path_id :: _x =>
    some (if branches then
      packU16 18 ++ fieldI 8 sample_id ++ fieldI 8 evsel_id ++ fieldI 8 machine_id ++
        fieldI 8 thread_id ++ fieldI 8 comm_id ++ fieldI 8 dso_id ++ fieldI 8 symbol_id ++
        fieldI 8 sym_offset ++ fieldI 8 ip ++ fieldI 8 time ++ fieldI 4 cpu ++
        fieldI 8 to_dso_id ++ fieldI 8 to_symbol_id ++ fieldI 8 to_sym_offset ++
        fieldI 8 to_ip ++ fieldI 4 branch_type ++ fieldI 1 in_tx ++ fieldI 8 call_path_id
    else
      packU16 22 ++ fieldI 8 sample_id ++ fieldI 8 evsel_id ++ fieldI 8 machine_id ++
        fieldI 8 thread_id ++ fieldI 8 comm_id ++ fieldI 8 dso_id ++ fieldI 8 symbol_id ++
        fieldI 8 sym_offset ++ fieldI 8 ip ++ fieldI 8 time ++ fieldI 4 cpu ++
        fieldI 8 to_dso_id ++ fieldI 8 to_symbol_id ++ fieldI 8 to_sym_offset ++
        fieldI 8 to_ip ++ fieldI 8 period ++ fieldI 8 weight ++ fieldI 8 transaction_ ++
        fieldI 8 data_src ++ fieldI 4 branch_type ++ fieldI 1 in_tx ++ fieldI 8 call_path_id)
  | _ => none

/-- Source lines 712-715: `call_path_table` packs `"!hiqiqiqiq"` with values
`4, 8, cp_id, 8, parent_id, 8, symbol_id, 8, ip`. -/
def call_path_table (cp_id parent_id symbol_id ip : Int) : List Nat :=
  packU16 4 ++ fieldI 8 cp_id ++ fieldI 8 parent_id ++ fieldI 8 symbol_id ++ fieldI 8 ip

/-- Source lines 717-720: `call_return_table` packs `"!hiqiqiqiqiqiqiqiqiqiqii"`
with values `11, 8, cr_id, 8, thread_id, 8, comm_id, 8, call_path_id, 8, call_time,
8, return_time, 8, branch_count, 8, call_id, 8, return_id, 8, parent_call_path_id,
4, flags`. -/
def call_return_table (cr_id thread_id comm_id call_path_id call_time return_time
    branch_count call_id return_id parent_call_path_id flags : Int) : List Nat :=
  packU16 11 ++ fieldI 8 cr_id ++ fieldI 8 thread_id ++ fieldI 8 comm_id ++
    fieldI 8 call_path_id ++ fieldI 8 call_time ++ fieldI 8 return_time ++
    fieldI 8 branch_count ++ fieldI 8 call_id ++ fieldI 8 return_id ++
    fieldI 8 parent_call_path_id ++ fieldI 4 flags

example : strBytes "unknown" = [117, 110, 107, 110, 111, 119, 110] := by decide

example : file_header.length = 19 := by decide

/-- A trace event delivered by the perf engine, carrying the already-parsed
arguments of the corresponding export callback.  `sample` and nothing else
keeps its arguments as a raw list, because the sample callback's arity is a
subject of the specification. -/
inductive Event where
  | evsel (id : Int) (name : List Nat)
  | machine (id pid : Int) (root_dir : List Nat)
  | thread (id machine_id process_id pid tid : Int)
  | comm (id : Int) (name : List Nat)
  | comm_thread (id comm_id thread_id : Int)
  | dso (id machine_id : Int) (short_name long_name build_id : List Nat)
  | symbol (id dso_id sym_start sym_end binding : Int) (name : List Nat)
  | branch_type (id : Int) (name : List Nat)
  | sample (args : List Int)
  | call_path (id parent_id symbol_id ip : Int)
  | call_return (id thread_id comm_id call_path_id call_time return_time
      branch_count call_id return_id parent_call_path_id flags : Int)
  | unhandled
deriving DecidableEq

/-- The staging-file rows an event callback appends: each callback writes one
encoded row to its table's staging file.  `call_path` / `call_return` rows
exist only when the corresponding staging file was opened (lines 547-550);
a `sample` call with fewer than 22 arguments raises before writing (modelled
by the `none` branch producing no row); `unhandled` writes nothing. -/
def eventWrites (cfg : Config) : Event → List (Table × List Nat)
  | .evsel id name => [(.selected_events, evsel_table id name)]
  | .machine id pid root_dir => [(.machines, machine_table id pid root_dir)]
  | .thread id m p pid tid => [(.threads, thread_table id m p pid tid)]
  | .comm id name => [(.comms, comm_table id name)]
  | .comm_thread id c t => [(.comm_threads, comm_thread_table id c t)]
  | .dso id m sn ln bid => [(.dsos, dso_table id m sn ln bid)]
  | .symbol id d ss se b name => [(.symbols, symbol_table id d ss se b name)]
  | .branch_type id name => [(.branch_types, branch_type_table id name)]
  | .sample args =>
    match sample_table cfg.branches args with
    | some row => [(.samples, row)]
    | none => []
  | .call_path id p s ip =>
    if cfg.exportCalls || cfg.exportCallchains then
      [(.call_paths, call_path_table id p s ip)]
    else []
  | .call_return a b c d e f g h i j k =>
    if cfg.exportCalls then
      [(.calls, call_return_table a b c d e f g h i j k)]
    else []
  | .unhandled => []

/-- Source lines 552-563 (`trace_begin`): before any event is processed, one
id-0 row is written to the staging files of selected_events, machines,
threads, comms, dsos, symbols and samples, plus call_paths when the calls or
callchains option is on.  No row is written for comm_threads or branch_types. -/
def trace_begin (cfg : Config) : List (Table × List Nat) :=
  [(.selected_events, evsel_table 0 (strBytes "unknown")),
   (.machines, machine_table 0 0 (strBytes "unknown")),
   (.threads, thread_table 0 0 0 (-1) (-1)),
   (.comms, comm_table 0 (strBytes "unknown")),
   (.dsos, dso_table 0 0 (strBytes "unknown") (strBytes "unknown") []),
   (.symbols, symbol_table 0 0 0 0 0 (strBytes "unknown")),
   (.samples, (sample_table cfg.branches (List.replicate 22 0)).getD [])] ++
  (if cfg.exportCalls || cfg.exportCallchains then
    [(.call_paths, call_path_table 0 0 0 0)]
  else [])

/-- All rows appended to the staging files over a run, in write order: the
`trace_begin` sentinel rows first, then each event callback's rows in event
order (the perf engine calls `trace_begin` before delivering any event). -/
def runWrites (cfg : Config) (evs : List Event) : List (Table × List Nat) :=
  trace_begin cfg ++ (evs.map (eventWrites cfg)).flatten

/-- The first row written to table `t`, if any. -/
def firstWriteFor (t : Table) (ws : List (Table × List Nat)) : Option (List Nat) :=
  ((ws.filter fun w => w.1 == t).head?).map Prod.snd

/-- Which tables have a staging file: call_path_table.bin only when calls or
callchains is on (line 547), call_table.bin only when calls is on (line 549),
every other table always (lines 538-546). -/
def tableHasFile (cfg : Config) : Table → Bool
  | .call_paths => cfg.exportCalls || cfg.exportCallchains
  | .calls => cfg.exportCalls
  | _ => true

/-- Full contents of table `t`'s staging file at copy time: the 19-byte
header written at open, every row appended during the run, and the 2-byte
trailer appended by `copy_output_file` before reading the file back. -/
def stagingFile (cfg : Config) (evs : List Event) (t : Table) : Option (List Nat) :=
  if tableHasFile cfg t then
    some (file_header ++
      (((runWrites cfg evs).filter fun w => w.1 == t).map Prod.snd).flatten ++
      file_trailer)
  else none

/-- The script's mutable session state touched by event handling: the
staging-file rows written so far and the global `unhandled_count`. -/
structure SessionState where
  writes : List (Table × List Nat)
  unhandled_count : Nat
deriving DecidableEq

/-- Source lines 651-653: `trace_unhandled` increments the global
`unhandled_count` and does nothing else. -/
def trace_unhandled (s : SessionState) : SessionState :=
  { s with unhandled_count := s.unhandled_count + 1 }

/-- One event callback as a state transition: unrecognized events go to
`trace_unhandled`; a sample callback with fewer than 22 arguments raises
`TypeError` (the `Except.error` branch); every other callback appends its
rows. -/
def process_event (cfg : Config) (s : SessionState) (e : Event) :
    Except String SessionState :=
  match e with
  | .unhandled => .ok (trace_unhandled s)
  | .sample args =>
    if (sample_table cfg.branches args).isSome then
      .ok { s with writes := s.writes ++ eventWrites cfg (.sample args) }
    else
      .error "TypeError"
  | e => .ok { s with writes := s.writes ++ eventWrites cfg e }

/-- Source lines 647-648: at the end of `trace_end` a warning carrying the
tally is printed exactly when `unhandled_count` is nonzero. -/
def trace_end_warning (unhandled_count : Nat) : Option Nat :=
  if unhandled_count ≠ 0 then some unhandled_count else none

/-- A typed view of one encoded field, used to state the wire-format grammar:
a fixed-width number of `w` bytes or a text field of its string length. -/
inductive FieldVal where
  | num (w : Nat) (v : Int)
  | str (s : List Nat)

/-- Encoding of one field: 32-bit length header then the content bytes. -/
def encodeField : FieldVal → List Nat
  | .num w v => fieldI w v
  | .str s => fieldS s

/-- The content width of a field. -/
def fieldWidth : FieldVal → Nat
  | .num w _ => w
  | .str s => s.length

/-- Encoding of one row: 16-bit field count, then each field in order. -/
def encodeRow (fs : List FieldVal) : List Nat :=
  packU16 fs.length ++ (fs.map encodeField).flatten

/-- Consume `n` length-prefixed fields from a byte list, returning the
remaining bytes; fails when the bytes run out. -/
def chompFields : Nat → List Nat → Option (List Nat)
  | 0, bs => some bs
  | n + 1, bs =>
    let len := beVal (bs.take 4)
    if 4 + len ≤ bs.length then chompFields n (bs.drop (4 + len))
    else none

/-- A byte list parses as exactly one row: a 16-bit big-endian field count
followed by that many length-prefixed fields, with nothing left over. -/
def rowOk (r : List Nat) : Bool :=
  match r with
  | a :: b :: rest => chompFields (256 * a + b) rest == some []
  | _ => false

/-- The field count claimed by a row's first two bytes. -/
def rowFieldCount (r : List Nat) : Nat :=
  match r with
  | a :: b :: _ => 256 * a + b
  | _ => 0

/-- Database-side and file-system actions performed by `trace_end`
(lines 567-645), in program order. -/
inductive DbAction where
  | copy (t : Table)
  | removeFile (t : Table)
  | rmdirOutputDir
  | addPrimaryKey (t : Table)
  | addForeignKeys (t : Table) (parents : List Table)
  | createIndex (t : Table) (column : String)
deriving DecidableEq

/-- Source lines 567-645: the exact action sequence of `trace_end` for given
`calls` / `callchains` flags: copy every staging file into its table
(lines 569-581), delete the staging files (584-596), remove the working
directory (597), add a primary key on id to every table (599-611), add the
foreign-key constraints (614-644), and create the index on
calls(parent_call_path_id) (645).  The `parents` list of each
`addForeignKeys` records the referenced table of each ADD CONSTRAINT in
order. -/
def trace_end_actions (c cc : Bool) : List DbAction :=
  [.copy .selected_events, .copy .machines, .copy .threads, .copy .comms,
   .copy .comm_threads, .copy .dsos, .copy .symbols, .copy .branch_types,
   .copy .samples] ++
  (if c || cc then [.copy .call_paths] else []) ++
  (if c then [.copy .calls] else []) ++
  [.removeFile .selected_events, .removeFile .machines, .removeFile .threads,
   .removeFile .comms, .removeFile .comm_threads, .removeFile .dsos,
   .removeFile .symbols, .removeFile .branch_types, .removeFile .samples] ++
  (if c || cc then [.removeFile .call_paths] else []) ++
  (if c then [.removeFile .calls] else []) ++
  [.rmdirOutputDir] ++
  [.addPrimaryKey .selected_events, .addPrimaryKey .machines,
   .addPrimaryKey .threads, .addPrimaryKey .comms, .addPrimaryKey .comm_threads,
   .addPrimaryKey .dsos, .addPrimaryKey .symbols, .addPrimaryKey .branch_types,
   .addPrimaryKey .samples] ++
  (if c || cc then [.addPrimaryKey .call_paths] else []) ++
  (if c then [.addPrimaryKey .calls] else []) ++
  [.addForeignKeys .threads [.machines, .threads],
   .addForeignKeys .comm_threads [.comms, .threads],
   .addForeignKeys .dsos [.machines],
   .addForeignKeys .symbols [.dsos],
   .addForeignKeys .samples
     [.selected_events, .machines, .threads, .comms, .dsos, .symbols, .dsos, .symbols]] ++
  (if c || cc then [.addForeignKeys .call_paths [.call_paths, .symbols]] else []) ++
  (if c then
    [.addForeignKeys .calls [.threads, .comms, .call_paths, .samples, .samples, .call_paths],
     .createIndex .calls "parent_call_path_id"]
  else [])

/-- The tables created by the DDL phase (lines 284-383) for given flags. -/
def createdTables (c cc : Bool) : List Table :=
  [.selected_events, .machines, .threads, .comms, .comm_threads, .dsos,
   .symbols, .branch_types, .samples] ++
  (if c || cc then [.call_paths] else []) ++
  (if c then [.calls] else [])

/-- Every action matching `p` occurs strictly before every action matching
`q` in the list. -/
def allBefore (p q : DbAction → Bool) : List DbAction → Bool
  | [] => true
  | a :: rest =>
    (if q a then rest.all fun b => !(p b) else true) && allBefore p q rest

/-- Whether the list contains a foreign-key addition for table `t`. -/
def hasFkFor (t : Table) (l : List DbAction) : Bool :=
  l.any fun a =>
    match a with
    | .addForeignKeys t' _ => t' == t
    | _ => false

/-- Auxiliary scan for `fkTopoOk`: `done` collects tables whose foreign keys
are already added. -/
def fkTopoAux (whole : List DbAction) (done : List Table) : List DbAction → Bool
  | [] => true
  | .addForeignKeys t parents :: rest =>
    (parents.all fun p => p == t || done.contains p || !(hasFkFor p whole)) &&
      fkTopoAux whole (t :: done) rest
  | _ :: rest => fkTopoAux whole done rest

/-- Foreign keys are added parents-first: when a table's constraints are
added, every referenced table that has constraints of its own already had
them added (self-references allowed). -/
def fkTopoOk (l : List DbAction) : Bool := fkTopoAux l [] l

/-- The startup actions taken before event processing: directory creation and
database-object creation (lines 255-490), preceded by argument validation
(lines 236-253) which raises through `usage()` before any of them on a bad
command line. -/
inductive StartAction where
  | usageAbort
  | mkdirOutputDir
  | createDatabase (name : String)
  | createSchema
deriving DecidableEq

/-- Source lines 247-253: the trailing arguments are scanned left to right;
`calls` sets `perf_db_export_calls`, `callchains` sets
`perf_db_export_callchains`, anything else calls `usage()` (abort). -/
def parseTrailing (calls callchains : Bool) : List String → Option (Bool × Bool)
  | [] => some (calls, callchains)
  | t :: ts =>
    if t = "calls" then parseTrailing true callchains ts
    else if t = "callchains" then parseTrailing calls true ts
    else none

/-- Source lines 236-253: argument validation.  `argv` is the full argument
vector (script name first).  Fewer than two entries aborts; `argv[2]`
defaults to "all" and must be "all" or "branches"; trailing entries must each
be "calls" or "callchains". -/
def parseArgs : List String → Option Config
  | _ :: dbname :: rest =>
    let columns := match rest with
      | [] => "all"
      | c :: _ => c
    if columns = "all" ∨ columns = "branches" then
      (parseTrailing false false (rest.drop 1)).map fun p =>
        { dbname := dbname, branches := columns = "branches",
          exportCalls := p.1, exportCallchains := p.2 }
    else none
  | _ => none

/-- Modelled from the claim's wording for comparison with `parseArgs`: a
command line is invalid when it has fewer than two entries, a columns value
outside {all, branches}, or any trailing token other than calls/callchains. -/
def invalidArgv (argv : List String) : Prop :=
  argv.length < 2 ∨
  (∃ c, argv.get? 2 = some c ∧ c ≠ "all" ∧ c ≠ "branches") ∨
  (∃ t ∈ argv.drop 3, t ≠ "calls" ∧ t ≠ "callchains")

/-- The actions the script start-up performs, in order: on invalid arguments
`usage()` raises before the working directory or any database object exists
(lines 236-253 precede line 256); otherwise the directory is created, then
the database, then the tables and views. -/
def startup (argv : List String) : List StartAction :=
  match parseArgs argv with
  | none => [.usageAbort]
  | some cfg => [.mkdirOutputDir, .createDatabase cfg.dbname, .createSchema]

/-- The phases of a run at which a failure can occur, in program order. -/
inductive Step where
  | createDatabase
  | createSchema
  | streaming
  | copyFiles
  | removeFiles
  | finalizeKeys
deriving DecidableEq

/-- File-system operations on the working directory. -/
inductive FsAction where
  | mkdirOutputDir
  | rmdirOutputDir
deriving DecidableEq

/-- The working-directory operations of a whole run, as a function of where
the run fails (`none` = success):  `os.mkdir` at line 256 always runs first;
a failure at CREATE DATABASE runs `os.rmdir` in the except block
(lines 269-273) before re-raising; failures from schema creation up to
staging-file removal leave the directory in place; a successful path reaches
the `os.rmdir` at line 597, which also precedes the key/index DDL, so a
failure during finalization happens after the directory is already gone. -/
def runDirTrace (failAt : Option Step) : List FsAction :=
  [.mkdirOutputDir] ++
  match failAt with
  | some .createDatabase => [.rmdirOutputDir]
  | some .createSchema => []
  | some .streaming => []
  | some .copyFiles => []
  | some .removeFiles => []
  | some .finalizeKeys => [.rmdirOutputDir]
  | none => [.rmdirOutputDir]

/-- Whether the working directory still exists when the run ends. -/
def dirPresentAtEnd (failAt : Option Step) : Bool :=
  (runDirTrace failAt).count .mkdirOutputDir >
    (runDirTrace failAt).count .rmdirOutputDir

/-- Whether the run failed. -/
def runFailed (failAt : Option Step) : Bool := failAt.isSome

/-- The column list of the branches-variant samples table, transcribed from
the CREATE TABLE at lines 321-339: 17 columns, no call_path_id. -/
def branches_samples_columns : List String :=
  ["id", "evsel_id", "machine_id", "thread_id", "comm_id", "dso_id",
   "symbol_id", "sym_offset", "ip", "time", "cpu", "to_dso_id",
   "to_symbol_id", "to_sym_offset", "to_ip", "branch_type", "in_tx"]

/-- The fields written by `sample_table` in the branches variant, in pack
order (line 707): 18 fields, the last one call_path_id. -/
def branches_sample_fields : List String :=
  ["id", "evsel_id", "machine_id", "thread_id", "comm_id", "dso_id",
   "symbol_id", "sym_offset", "ip", "time", "cpu", "to_dso_id",
   "to_symbol_id", "to_sym_offset", "to_ip", "branch_type", "in_tx",
   "call_path_id"]

/-- Classifier for bulk-copy actions. -/
def isCopy : DbAction → Bool
  | .copy _ => true
  | _ => false

/-- Classifier for staging-file removal actions. -/
def isRemove : DbAction → Bool
  | .removeFile _ => true
  | _ => false

/-- Classifier for primary-key additions. -/
def isAddPK : DbAction → Bool
  | .addPrimaryKey _ => true
  | _ => false

/-- Classifier for foreign-key additions. -/
def isAddFK : DbAction → Bool
  | .addForeignKeys _ _ => true
  | _ => false

/-- Classifier for index creation. -/
def isIndex : DbAction → Bool
  | .createIndex _ _ => true
  | _ => false

/-- Classifier for any schema-finalization DDL (keys or index). -/
def isKeyDDL (a : DbAction) : Bool := isAddPK a || isAddFK a || isIndex a

/-- Well-formedness of an event's string payloads: Python `struct.pack`
rejects a length that does not fit the signed 32-bit length header, so the
wire-format statements assume string payloads shorter than 2^32 (the source
packs `len(s)` with format code `i`). -/
def Event.wf : Event → Prop
  | .evsel _ name => name.length < 2 ^ 32
  | .machine _ _ root_dir => root_dir.length < 2 ^ 32
  | .comm _ name => name.length < 2 ^ 32
  | .dso _ _ sn ln bid =>
    sn.length < 2 ^ 32 ∧ ln.length < 2 ^ 32 ∧ bid.length < 2 ^ 32
  | .symbol _ _ _ _ _ name => name.length < 2 ^ 32
  | .branch_type _ name => name.length < 2 ^ 32
  | _ => True

/-- The content bytes of a field (what follows its length header). -/
def contentBytes : FieldVal → List Nat
  | .num w v => packInt w v
  | .str s => s

theorem natBE_length (w n : Nat) : (natBE w n).length = w := by
  induction w generalizing n with
  | zero => rfl
  | succ w ih => simp [natBE, ih]

theorem foldl_natBE (w a n : Nat) :
    List.foldl (fun a b => 256 * a + b) a (natBE w n) = a * 256 ^ w + n % 256 ^ w := by
  induction w generalizing a with
  | zero => simp [natBE, Nat.mod_one]
  | succ w ih =>
    rw [natBE, List.foldl_cons, ih]
    have h256 : (256 : Nat) ^ (w + 1) = 256 ^ w * 256 := by ring
    rw [h256, Nat.mod_mul]
    ring

theorem beVal_natBE (w n : Nat) (h : n < 256 ^ w) : beVal (natBE w n) = n := by
  rw [beVal, foldl_natBE, Nat.mod_eq_of_lt h]
  ring

theorem packInt_length (w : Nat) (v : Int) : (packInt w v).length = w := by
  rw [packInt, natBE_length]

theorem lenHdr_length (n : Nat) : (lenHdr n).length = 4 := by
  rw [lenHdr, natBE_length]

theorem beVal_lenHdr (n : Nat) (h : n < 2 ^ 32) : beVal (lenHdr n) = n := by
  rw [lenHdr, beVal_natBE]
  exact lt_of_lt_of_le h (by norm_num)

theorem contentBytes_length (f : FieldVal) : (contentBytes f).length = fieldWidth f := by
  cases f with
  | num w v => simp [contentBytes, fieldWidth, packInt_length]
  | str s => rfl

theorem encodeField_eq (f : FieldVal) :
    encodeField f = lenHdr (fieldWidth f) ++ contentBytes f := by
  cases f <;> rfl

theorem chompFields_encode (fs : List FieldVal) (tail : List Nat)
    (h : ∀ f ∈ fs, fieldWidth f < 2 ^ 32) :
    chompFields fs.length ((fs.map encodeField).flatten ++ tail) = some tail := by
  induction fs generalizing tail with
  | nil => rfl
  | cons f fs ih =>
    have hf : fieldWidth f < 2 ^ 32 := h f (List.mem_cons_self f fs)
    have hfs : ∀ g ∈ fs, fieldWidth g < 2 ^ 32 := fun g hg => h g (List.mem_cons_of_mem _ hg)
    have hbytes : ((f :: fs).map encodeField).flatten ++ tail =
        (lenHdr (fieldWidth f) ++ contentBytes f) ++ ((fs.map encodeField).flatten ++ tail) := by
      simp [encodeField_eq f, List.append_assoc]
    rw [List.length_cons, hbytes, chompFields]
    have hlen : ((lenHdr (fieldWidth f) ++ contentBytes f) ++
        ((fs.map encodeField).flatten ++ tail)).take 4 = lenHdr (fieldWidth f) := by
      rw [List.append_assoc]
      have h4 : (4 : Nat) = (lenHdr (fieldWidth f)).length := (lenHdr_length _).symm
      rw [h4, List.take_left]
    have hprefix : ((lenHdr (fieldWidth f) ++ contentBytes f)).length = 4 + fieldWidth f := by
      rw [List.length_append, lenHdr_length, contentBytes_length]
    simp only [hlen, beVal_lenHdr _ hf]
    rw [if_pos]
    · have hdrop : ((lenHdr (fieldWidth f) ++ contentBytes f) ++
          ((fs.map encodeField).flatten ++ tail)).drop (4 + fieldWidth f) =
          (fs.map encodeField).flatten ++ tail := by
        rw [← hprefix, List.drop_left]
      rw [hdrop]
      exact ih tail hfs
    · rw [List.length_append, hprefix]
      omega

theorem rowFieldCount_encodeRow (fs : List FieldVal) (h : fs.length < 2 ^ 16) :
    rowFieldCount (encodeRow fs) = fs.length := by
  have h2 : packU16 fs.length =
      [(fs.length / 256) % 256, (fs.length / 256 ^ 0) % 256] := rfl
  have : encodeRow fs = (fs.length / 256) % 256 :: (fs.length / 256 ^ 0) % 256 ::
      (fs.map encodeField).flatten := by
    rw [encodeRow, h2]
    rfl
  rw [this, rowFieldCount]
  have := foldl_natBE 2 0 fs.length
  simp only [natBE, pow_succ, pow_zero, one_mul, List.foldl] at this
  simp only [pow_zero, Nat.div_one]
  omega

theorem rowOk_encodeRow (fs : List FieldVal)
    (h : ∀ f ∈ fs, fieldWidth f < 2 ^ 32) (hlen : fs.length < 2 ^ 16) :
    rowOk (encodeRow fs) = true := by
  have h2 : encodeRow fs = (fs.length / 256) % 256 :: (fs.length / 256 ^ 0) % 256 ::
      (fs.map encodeField).flatten := by
    rw [encodeRow]
    rfl
  rw [h2, rowOk]
  have hcount : 256 * ((fs.length / 256) % 256) + (fs.length / 256 ^ 0) % 256 = fs.length := by
    have := foldl_natBE 2 0 fs.length
    simp only [natBE, pow_succ, pow_zero, one_mul, List.foldl] at this
    simp only [pow_zero, Nat.div_one]
    omega
  rw [hcount]
  have := chompFields_encode fs [] h
  rw [List.append_nil] at this
  simp [this]

theorem evsel_table_eq (id : Int) (name : List Nat) :
    evsel_table id name = encodeRow [.num 8 id, .str name] := by
  simp [evsel_table, encodeRow, encodeField]

theorem machine_table_eq (id pid : Int) (root_dir : List Nat) :
    machine_table id pid root_dir = encodeRow [.num 8 id, .num 4 pid, .str root_dir] := by
  simp [machine_table, encodeRow, encodeField]

theorem thread_table_eq (id m p pid tid : Int) :
    thread_table id m p pid tid =
      encodeRow [.num 8 id, .num 8 m, .num 8 p, .num 4 pid, .num 4 tid] := by
  simp [thread_table, encodeRow, encodeField]

theorem comm_table_eq (id : Int) (s : List Nat) :
    comm_table id s = encodeRow [.num 8 id, .str s] := by
  simp [comm_table, encodeRow, encodeField]

theorem comm_thread_table_eq (id c t : Int) :
    comm_thread_table id c t = encodeRow [.num 8 id, .num 8 c, .num 8 t] := by
  simp [comm_thread_table, encodeRow, encodeField]

theorem dso_table_eq (id m : Int) (sn ln bid : List Nat) :
    dso_table id m sn ln bid =
      encodeRow [.num 8 id, .num 8 m, .str sn, .str ln, .str bid] := by
  simp [dso_table, encodeRow, encodeField]

theorem symbol_table_eq (id d ss se b : Int) (name : List Nat) :
    symbol_table id d ss se b name =
      encodeRow [.num 8 id, .num 8 d, .num 8 ss, .num 8 se, .num 4 b, .str name] := by
  simp [symbol_table, encodeRow, encodeField]

theorem branch_type_table_eq (id : Int) (name : List Nat) :
    branch_type_table id name = encodeRow [.num 4 id, .str name] := by
  simp [branch_type_table, encodeRow, encodeField]

theorem call_path_table_eq (id p s ip : Int) :
    call_path_table id p s ip =
      encodeRow [.num 8 id, .num 8 p, .num 8 s, .num 8 ip] := by
  simp [call_path_table, encodeRow, encodeField]

theorem call_return_table_eq (a b c d e f g h i j k : Int) :
    call_return_table a b c d e f g h i j k =
      encodeRow [.num 8 a, .num 8 b, .num 8 c, .num 8 d, .num 8 e, .num 8 f,
        .num 8 g, .num 8 h, .num 8 i, .num 8 j, .num 4 k] := by
  simp [call_return_table, encodeRow, encodeField]

theorem sample_table_eq_branches
    (x0 x1 x2 x3 x4 x5 x6 x7 x8 x9 x10 x11 x12 x13 x14 x15 x16 x17 x18 x19 x20 x21 : Int)
    (extra : List Int) :
    sample_table true (x0 :: x1 :: x2 :: x3 :: x4 :: x5 :: x6 :: x7 :: x8 :: x9 :: x10 ::
        x11 :: x12 :: x13 :: x14 :: x15 :: x16 :: x17 :: x18 :: x19 :: x20 :: x21 :: extra) =
      some (encodeRow [.num 8 x0, .num 8 x1, .num 8 x2, .num 8 x3, .num 8 x4, .num 8 x5,
        .num 8 x6, .num 8 x7, .num 8 x8, .num 8 x9, .num 4 x10, .num 8 x11, .num 8 x12,
        .num 8 x13, .num 8 x14, .num 4 x19, .num 1 x20, .num 8 x21]) := by
  simp [sample_table, encodeRow, encodeField]

theorem sample_table_eq_all
    (x0 x1 x2 x3 x4 x5 x6 x7 x8 x9 x10 x11 x12 x13 x14 x15 x16 x17 x18 x19 x20 x21 : Int)
    (extra : List Int) :
    sample_table false (x0 :: x1 :: x2 :: x3 :: x4 :: x5 :: x6 :: x7 :: x8 :: x9 :: x10 ::
        x11 :: x12 :: x13 :: x14 :: x15 :: x16 :: x17 :: x18 :: x19 :: x20 :: x21 :: extra) =
      some (encodeRow [.num 8 x0, .num 8 x1, .num 8 x2, .num 8 x3, .num 8 x4, .num 8 x5,
        .num 8 x6, .num 8 x7, .num 8 x8, .num 8 x9, .num 4 x10, .num 8 x11, .num 8 x12,
        .num 8 x13, .num 8 x14, .num 8 x15, .num 8 x16, .num 8 x17, .num 8 x18,
        .num 4 x19, .num 1 x20, .num 8 x21]) := by
  simp [sample_table, encodeRow, encodeField]

theorem widths_of_all (fs : List FieldVal)
    (h : (fs.all fun f => decide (fieldWidth f < 2 ^ 32)) = true) :
    ∀ f ∈ fs, fieldWidth f < 2 ^ 32 := by
  intro f hf
  exact of_decide_eq_true (List.all_eq_true.mp h f hf)

theorem sample_table_none_of_short (b : Bool) (args : List Int)
    (h : args.length < 22) : sample_table b args = none := by
  rcases args with _ | ⟨x0, _ | ⟨x1, _ | ⟨x2, _ | ⟨x3, _ | ⟨x4, _ | ⟨x5, _ | ⟨x6, _ | ⟨x7,
    _ | ⟨x8, _ | ⟨x9, _ | ⟨x10, _ | ⟨x11, _ | ⟨x12, _ | ⟨x13, _ | ⟨x14, _ | ⟨x15,
    _ | ⟨x16, _ | ⟨x17, _ | ⟨x18, _ | ⟨x19, _ | ⟨x20, _ | ⟨x21, extra⟩⟩⟩⟩⟩⟩⟩⟩⟩⟩⟩⟩⟩⟩⟩⟩⟩⟩⟩⟩⟩⟩
  all_goals try rfl
  exfalso
  simp only [List.length_cons] at h
  omega

theorem sample_table_some (b : Bool) (args : List Int) (row : List Nat)
    (h : sample_table b args = some row) :
    rowFieldCount row = (if b then 18 else 22) ∧ rowOk row = true := by
  rcases args with _ | ⟨x0, _ | ⟨x1, _ | ⟨x2, _ | ⟨x3, _ | ⟨x4, _ | ⟨x5, _ | ⟨x6, _ | ⟨x7,
    _ | ⟨x8, _ | ⟨x9, _ | ⟨x10, _ | ⟨x11, _ | ⟨x12, _ | ⟨x13, _ | ⟨x14, _ | ⟨x15,
    _ | ⟨x16, _ | ⟨x17, _ | ⟨x18, _ | ⟨x19, _ | ⟨x20, _ | ⟨x21, extra⟩⟩⟩⟩⟩⟩⟩⟩⟩⟩⟩⟩⟩⟩⟩⟩⟩⟩⟩⟩⟩⟩
  all_goals try exact Option.noConfusion h
  cases b with
  | true =>
    rw [sample_table_eq_branches] at h
    obtain rfl := (Option.some.inj h).symm
    refine ⟨?_, ?_⟩
    · rw [rowFieldCount_encodeRow _ (by norm_num)]
      norm_num
    · exact rowOk_encodeRow _ (widths_of_all _ rfl) (by norm_num)
  | false =>
    rw [sample_table_eq_all] at h
    obtain rfl := (Option.some.inj h).symm
    refine ⟨?_, ?_⟩
    · rw [rowFieldCount_encodeRow _ (by norm_num)]
      norm_num
    · exact rowOk_encodeRow _ (widths_of_all _ rfl) (by norm_num)

theorem firstWriteFor_append (t : Table) (a b : List (Table × List Nat)) :
    firstWriteFor t (a ++ b) =
      match firstWriteFor t a with
      | some r => some r
      | none => firstWriteFor t b := by
  rw [firstWriteFor, List.filter_append]
  cases h : a.filter (fun w => w.1 == t) with
  | nil => simp [firstWriteFor, h]
  | cons hd tl => simp [firstWriteFor, h]

/-- C4: schema finalization runs only after every staging buffer has been
loaded (every copy precedes every key/index DDL), adds a primary key on id
to every created table, adds all primary keys before any foreign key, adds
foreign keys with each parent table's constraints before its dependents'
(self-references aside), and creates the index on
calls(parent_call_path_id) last, exactly when the calls table exists. -/
theorem spec_c4_finalization_order :
    ∀ c cc : Bool,
      allBefore isCopy isKeyDDL (trace_end_actions c cc) = true ∧
      ((createdTables c cc).all fun t =>
        (trace_end_actions c cc).contains (.addPrimaryKey t)) = true ∧
      allBefore isAddPK isAddFK (trace_end_actions c cc) = true ∧
      fkTopoOk (trace_end_actions c cc) = true ∧
      allBefore isAddFK isIndex (trace_end_actions c cc) = true ∧
      (if c then
        (trace_end_actions c cc).getLast? == some (.createIndex .calls "parent_call_path_id")
      else !((trace_end_actions c cc).any isIndex)) = true := by
  intro c cc
  cases c <;> cases cc <;> decide

/-- C5 counterexample: the claim says each staging file is removed before the
next table's transfer begins, but in `trace_end` the very second transfer
(machines, the table after selected_events in the fixed load order) starts
before the first staging file (selected_events) is removed. -/
theorem spec_c5_counterexample :
    (trace_end_actions false false).indexOf (.copy .machines) <
      (trace_end_actions false false).indexOf (.removeFile .selected_events) ∧
    DbAction.copy .machines ∈ trace_end_actions false false ∧
    DbAction.removeFile .selected_events ∈ trace_end_actions false false := by
  decide

/-- C5 (amended): all bulk transfers run first, in the fixed load order; only
after every table's transfer completes are the staging files closed and
deleted, in the same order — so every sealed staging file remains on disk
until the whole load phase ends, rather than at most one being in flight. -/
theorem spec_c5_amended :
    ∀ c cc : Bool,
      allBefore isCopy isRemove (trace_end_actions c cc) = true ∧
      (trace_end_actions c cc).filter isCopy = (createdTables c cc).map DbAction.copy ∧
      (trace_end_actions c cc).filter isRemove =
        (createdTables c cc).map DbAction.removeFile := by
  intro c cc
  cases c <;> cases cc <;> decide

/-- C7 counterexample: the claim says every failing run leaves the working
directory behind, but a run that fails at CREATE DATABASE removes it in the
except block (lines 269-273) before re-raising. -/
theorem spec_c7_counterexample :
    runFailed (some .createDatabase) = true ∧
    dirPresentAtEnd (some .createDatabase) = false := by
  decide

/-- C7 (amended): the working directory is created at the start of every run
and removed after a successful run; a run failing at database creation also
removes it, and a run failing during key/index finalization fails after it
was already removed (line 597 precedes lines 598-645) — only failures
between schema creation and staging-file removal leave it behind. -/
theorem spec_c7_amended :
    ∀ failAt : Option Step,
      (runDirTrace failAt).head? = some .mkdirOutputDir ∧
      dirPresentAtEnd none = false ∧
      (dirPresentAtEnd failAt = true ↔
        failAt = some .createSchema ∨ failAt = some .streaming ∨
        failAt = some .copyFiles ∨ failAt = some .removeFiles) := by
  intro failAt
  rcases failAt with _ | s
  · decide
  · cases s <;> decide

/-- C10: in the branches variant the sample encoder writes 18 fields whose
last field is call_path_id, while the branches-variant samples CREATE TABLE
declares exactly 17 columns and no call_path_id column, so the encoded field
set never equals the declared column set in that variant. -/
theorem spec_c10_branches_mismatch :
    branches_sample_fields.length = 18 ∧
    branches_sample_fields.getLast? = some "call_path_id" ∧
    branches_samples_columns.length = 17 ∧
    "call_path_id" ∉ branches_samples_columns ∧
    branches_sample_fields ≠ branches_samples_columns ∧
    rowFieldCount ((sample_table true (List.replicate 22 0)).getD []) =
      branches_sample_fields.length := by
  refine ⟨by decide, by decide, by decide, by decide, by decide, ?_⟩
  rfl

theorem rowFieldCount_eventWrites_sample (cfg : Config) (args : List Int)
    (w : Table × List Nat) (hw : w ∈ eventWrites cfg (.sample args)) :
    rowFieldCount w.2 = if cfg.branches then 18 else 22 := by
  rcases h : sample_table cfg.branches args with _ | row
  · rw [eventWrites, h] at hw
    exact absurd hw (List.not_mem_nil w)
  · rw [eventWrites, h] at hw
    rcases List.mem_singleton.mp hw with rfl
    exact (sample_table_some _ _ _ h).1

/-- C1 counterexample: with the `all` variant and call-path tracking active
(callchains flag on), the claim requires 23 fields, but the sample encoder
still writes 22 — its output never depends on the callchains flag. -/
theorem spec_c1_counterexample :
    rowFieldCount (((eventWrites ⟨"pt_example", false, false, true⟩
        (.sample (List.replicate 22 0))).map Prod.snd).flatten) = 22 ∧
    (22 : Nat) ≠ 23 := by
  exact ⟨rfl, by decide⟩

/-- C1 (amended): under variant `branches` every encoded Sample record
carries exactly 18 fields, under variant `all` exactly 22 fields regardless
of call-path tracking; the encoder accepts any call with at least 22
arguments (ignoring extras) and rejects calls with fewer than 22 arguments —
with the `TypeError` raised by the encoder itself, before any database
interaction — independently of the active variant's field count. -/
theorem spec_c1_amended :
    (∀ b : Bool,
      ∀ x0 x1 x2 x3 x4 x5 x6 x7 x8 x9 x10 x11 x12 x13 x14 x15 x16 x17 x18 x19 x20 x21 : Int,
      ∀ extra : List Int,
      (sample_table b (x0 :: x1 :: x2 :: x3 :: x4 :: x5 :: x6 :: x7 :: x8 :: x9 :: x10 ::
        x11 :: x12 :: x13 :: x14 :: x15 :: x16 :: x17 :: x18 :: x19 :: x20 :: x21 ::
        extra)).isSome = true ∧
      rowFieldCount ((sample_table b (x0 :: x1 :: x2 :: x3 :: x4 :: x5 :: x6 :: x7 :: x8 ::
        x9 :: x10 :: x11 :: x12 :: x13 :: x14 :: x15 :: x16 :: x17 :: x18 :: x19 :: x20 ::
        x21 :: extra)).getD []) = if b then 18 else 22) ∧
    (∀ (b : Bool) (args : List Int), args.length < 22 → sample_table b args = none) ∧
    (∀ (cfg : Config) (args : List Int) (w : Table × List Nat),
      w ∈ eventWrites cfg (.sample args) →
      rowFieldCount w.2 = if cfg.branches then 18 else 22) := by
  refine ⟨?_, sample_table_none_of_short, rowFieldCount_eventWrites_sample⟩
  intro b x0 x1 x2 x3 x4 x5 x6 x7 x8 x9 x10 x11 x12 x13 x14 x15 x16 x17 x18 x19 x20 x21 extra
  cases b with
  | true =>
    rw [sample_table_eq_branches]
    refine ⟨rfl, ?_⟩
    rw [Option.getD_some, rowFieldCount_encodeRow _ (by norm_num)]
    norm_num
  | false =>
    rw [sample_table_eq_all]
    refine ⟨rfl, ?_⟩
    rw [Option.getD_some, rowFieldCount_encodeRow _ (by norm_num)]
    norm_num

/-- C1 witness: a concrete 22-argument call in each variant is accepted with
the variant's field count, and a concrete 21-argument call is rejected. -/
theorem spec_c1_witness :
    rowFieldCount ((sample_table true (List.replicate 22 0)).getD []) = 18 ∧
    rowFieldCount ((sample_table false (List.replicate 22 0)).getD []) = 22 ∧
    sample_table true (List.replicate 21 0) = none := by
  refine ⟨?_, ?_, ?_⟩
  · have h := (spec_c1_amended.1 true 0 0 0 0 0 0 0 0 0 0 0 0 0 0 0 0 0 0 0 0 0 0 []).2
    simpa using h
  · have h := (spec_c1_amended.1 false 0 0 0 0 0 0 0 0 0 0 0 0 0 0 0 0 0 0 0 0 0 0 []).2
    simpa using h
  · exact spec_c1_amended.2.1 true (List.replicate 21 0) (by decide)

/-- C9: every trace event of unrecognized kind increments the unhandled
tally by one, changes nothing else in the pipeline state, and never aborts
the run (the handler returns normally); at the end of the run a warning
carrying the tally is printed whenever the tally is nonzero. -/
theorem spec_c9_unhandled_counting :
    (∀ (cfg : Config) (s : SessionState),
      process_event cfg s .unhandled = .ok (trace_unhandled s)) ∧
    (∀ s : SessionState,
      trace_unhandled s =
        { writes := s.writes, unhandled_count := s.unhandled_count + 1 }) ∧
    (∀ n : Nat, n ≠ 0 → trace_end_warning n = some n) := by
  refine ⟨fun cfg s => rfl, fun s => rfl, fun n h => ?_⟩
  simp [trace_end_warning, h]

/-- C9 witness: three unhandled events yield a warning reporting three. -/
theorem spec_c9_witness : trace_end_warning 3 = some 3 :=
  spec_c9_unhandled_counting.2.2 3 (by decide)

theorem eventWrites_dbname (d1 d2 : String) (b c cc : Bool) :
    eventWrites ⟨d1, b, c, cc⟩ = eventWrites ⟨d2, b, c, cc⟩ := by
  funext e
  cases e <;> rfl

theorem tableHasFile_dbname (d1 d2 : String) (b c cc : Bool) :
    tableHasFile ⟨d1, b, c, cc⟩ = tableHasFile ⟨d2, b, c, cc⟩ := by
  funext t
  cases t <;> rfl

/-- C8: the staging-file bytes depend only on the event sequence and the
variant flags fixed at start (`branches`, `calls`, `callchains`) — two runs
over the same events with configurations agreeing on those flags (e.g.
differing only in database name) produce byte-identical staging files, so
re-encoding a fixed sequence is deterministic. -/
theorem spec_c8_determinism :
    ∀ (cfg1 cfg2 : Config) (evs : List Event) (t : Table),
      cfg1.branches = cfg2.branches →
      cfg1.exportCalls = cfg2.exportCalls →
      cfg1.exportCallchains = cfg2.exportCallchains →
      stagingFile cfg1 evs t = stagingFile cfg2 evs t := by
  rintro ⟨d1, b1, c1, cc1⟩ ⟨d2, b2, c2, cc2⟩ evs t hb hc hcc
  obtain rfl : b1 = b2 := hb
  obtain rfl : c1 = c2 := hc
  obtain rfl : cc1 = cc2 := hcc
  have h1 : eventWrites ⟨d1, b1, c1, cc1⟩ = eventWrites ⟨d2, b1, c1, cc1⟩ :=
    eventWrites_dbname d1 d2 b1 c1 cc1
  have h2 : tableHasFile ⟨d1, b1, c1, cc1⟩ = tableHasFile ⟨d2, b1, c1, cc1⟩ :=
    tableHasFile_dbname d1 d2 b1 c1 cc1
  have h3 : trace_begin ⟨d1, b1, c1, cc1⟩ = trace_begin ⟨d2, b1, c1, cc1⟩ := rfl
  simp only [stagingFile, runWrites, h1, h2, h3]

/-- C8 witness: two runs differing only in database name produce the same
comms staging file for a concrete event sequence. -/
theorem spec_c8_witness :
    stagingFile ⟨"pt_one", true, false, false⟩ [.comm 1 (strBytes "bash")] .comms =
      stagingFile ⟨"pt_two", true, false, false⟩ [.comm 1 (strBytes "bash")] .comms :=
  spec_c8_determinism _ _ _ _ rfl rfl rfl

theorem eventWrites_call_paths_empty (d : String) (b : Bool) (e : Event) :
    (eventWrites ⟨d, b, false, false⟩ e).filter
      (fun w => w.1 == Table.call_paths) = [] := by
  cases e with
  | sample args =>
    rcases h : sample_table b args with _ | row
    · simp [eventWrites, h]
    · simp [eventWrites, h]
  | _ => rfl

theorem no_call_paths_writes (d : String) (b : Bool) (evs : List Event) :
    firstWriteFor Table.call_paths (runWrites ⟨d, b, false, false⟩ evs) = none := by
  have hflat : ((evs.map (eventWrites ⟨d, b, false, false⟩)).flatten).filter
      (fun w => w.1 == Table.call_paths) = [] := by
    induction evs with
    | nil => rfl
    | cons e evs ih =>
      rw [List.map_cons, List.flatten_cons, List.filter_append,
        eventWrites_call_paths_empty, ih]
      rfl
  have hmain : (runWrites ⟨d, b, false, false⟩ evs).filter
      (fun w => w.1 == Table.call_paths) = [] := by
    rw [runWrites, List.filter_append, hflat]
    rfl
  rw [firstWriteFor, hmain]
  rfl

/-- C2 counterexample: in a run with both options on and any event stream —
here the empty one — no row at all is ever written for comm_threads or
branch_types, although the claim requires an id-0 sentinel row for both. -/
theorem spec_c2_counterexample :
    firstWriteFor Table.comm_threads
      (runWrites ⟨"pt_example", true, true, true⟩ []) = none ∧
    firstWriteFor Table.branch_types
      (runWrites ⟨"pt_example", true, true, true⟩ []) = none := by
  exact ⟨rfl, rfl⟩

/-- C2 (amended): for selected_events, machines, threads, comms, dsos,
symbols and samples — and call_paths exactly when the calls or callchains
option is on — an id-0 sentinel row is written by `trace_begin` before any
other row of the run; the text field of each sentinel that has one is
"unknown" (machines' root_dir, dsos' short and long names); no sentinel row
is written for comm_threads or branch_types. -/
theorem spec_c2_amended :
    ∀ (cfg : Config) (evs : List Event),
      firstWriteFor .selected_events (runWrites cfg evs) =
        some (evsel_table 0 (strBytes "unknown")) ∧
      firstWriteFor .machines (runWrites cfg evs) =
        some (machine_table 0 0 (strBytes "unknown")) ∧
      firstWriteFor .threads (runWrites cfg evs) =
        some (thread_table 0 0 0 (-1) (-1)) ∧
      firstWriteFor .comms (runWrites cfg evs) =
        some (comm_table 0 (strBytes "unknown")) ∧
      firstWriteFor .dsos (runWrites cfg evs) =
        some (dso_table 0 0 (strBytes "unknown") (strBytes "unknown") []) ∧
      firstWriteFor .symbols (runWrites cfg evs) =
        some (symbol_table 0 0 0 0 0 (strBytes "unknown")) ∧
      firstWriteFor .samples (runWrites cfg evs) =
        some ((sample_table cfg.branches (List.replicate 22 0)).getD []) ∧
      ((cfg.exportCalls || cfg.exportCallchains) = true →
        firstWriteFor .call_paths (runWrites cfg evs) =
          some (call_path_table 0 0 0 0)) ∧
      ((cfg.exportCalls || cfg.exportCallchains) = false →
        firstWriteFor .call_paths (runWrites cfg evs) = none) ∧
      firstWriteFor .comm_threads (trace_begin cfg) = none ∧
      firstWriteFor .branch_types (trace_begin cfg) = none := by
  rintro ⟨d, b, c, cc⟩ evs
  refine ⟨?_, ?_, ?_, ?_, ?_, ?_, ?_, ?_, ?_, ?_, ?_⟩
  · rw [runWrites, firstWriteFor_append]; rfl
  · rw [runWrites, firstWriteFor_append]; rfl
  · rw [runWrites, firstWriteFor_append]; rfl
  · rw [runWrites, firstWriteFor_append]; rfl
  · rw [runWrites, firstWriteFor_append]; rfl
  · rw [runWrites, firstWriteFor_append]; rfl
  · rw [runWrites, firstWriteFor_append]; rfl
  · intro h
    rw [runWrites, firstWriteFor_append]
    cases c <;> cases cc <;> first | rfl | simp at h
  · intro h
    cases c <;> cases cc <;> first | exact no_call_paths_writes d b evs | simp at h
  · cases c <;> cases cc <;> rfl
  · cases c <;> cases cc <;> rfl

/-- C2 witness: in a concrete branches run with callchains on and one comm
event, the first comms row is the "unknown" sentinel and the call_paths
sentinel exists. -/
theorem spec_c2_witness :
    firstWriteFor Table.comms
        (runWrites ⟨"pt_example", true, false, true⟩ [.comm 1 (strBytes "bash")]) =
      some (comm_table 0 (strBytes "unknown")) ∧
    firstWriteFor Table.call_paths
        (runWrites ⟨"pt_example", true, false, true⟩ [.comm 1 (strBytes "bash")]) =
      some (call_path_table 0 0 0 0) :=
  ⟨(spec_c2_amended ⟨"pt_example", true, false, true⟩ [.comm 1 (strBytes "bash")]).2.2.2.1,
   (spec_c2_amended ⟨"pt_example", true, false, true⟩
     [.comm 1 (strBytes "bash")]).2.2.2.2.2.2.2.1 rfl⟩

theorem parseTrailing_none (ts : List String) :
    ∀ c cc : Bool, (parseTrailing c cc ts = none ↔
      ∃ t ∈ ts, t ≠ "calls" ∧ t ≠ "callchains") := by
  induction ts with
  | nil => intro c cc; simp [parseTrailing]
  | cons t ts ih =>
    intro c cc
    by_cases h1 : t = "calls"
    · subst h1
      rw [parseTrailing, if_pos rfl, ih]
      simp
    · by_cases h2 : t = "callchains"
      · subst h2
        rw [parseTrailing, if_neg (by decide), if_pos rfl, ih]
        simp
      · rw [parseTrailing, if_neg h1, if_neg h2]
        simp [h1, h2]

/-- C6: a command line is rejected — usage printed, exception raised before
the working directory or any database object is created — exactly when it
has fewer than two entries, a columns value outside {all, branches}, or a
trailing token other than calls/callchains; every valid combination
proceeds to directory and database creation. -/
theorem spec_c6_cli_validation :
    ∀ argv : List String,
      (parseArgs argv = none ↔ invalidArgv argv) ∧
      (parseArgs argv = none → startup argv = [.usageAbort]) ∧
      (∀ cfg : Config, parseArgs argv = some cfg →
        startup argv = [.mkdirOutputDir, .createDatabase cfg.dbname, .createSchema]) := by
  intro argv
  refine ⟨?_, fun h => by simp [startup, h], fun cfg h => by simp [startup, h]⟩
  match argv with
  | [] => simp [parseArgs, invalidArgv]
  | [a] => simp [parseArgs, invalidArgv]
  | a :: b :: [] => simp [parseArgs, invalidArgv, parseTrailing]
  | a :: b :: col :: ts =>
    by_cases hcol : col = "all" ∨ col = "branches"
    · rw [show parseArgs (a :: b :: col :: ts) =
          (parseTrailing false false ts).map fun p =>
            { dbname := b, branches := col = "branches",
              exportCalls := p.1, exportCallchains := p.2 } by
        simp [parseArgs, if_pos hcol]]
      rw [Option.map_eq_none']
      rw [parseTrailing_none]
      constructor
      · intro hbad
        exact Or.inr (Or.inr hbad)
      · intro hinv
        rcases hinv with hlen | ⟨c2, hc2, hne1, hne2⟩ | hbad
        · simp at hlen
          omega
        · simp at hc2
          subst hc2
          rcases hcol with rfl | rfl
          · exact absurd rfl hne1
          · exact absurd rfl hne2
        · exact hbad
    · push_neg at hcol
      rw [show parseArgs (a :: b :: col :: ts) = none by
        simp [parseArgs, hcol.1, hcol.2]]
      simp only [invalidArgv]
      constructor
      · intro _
        exact Or.inr (Or.inl ⟨col, by simp, hcol.1, hcol.2⟩)
      · intro _
        trivial

/-- C6 witness: a bad columns token is rejected with no directory or
database action, and a fully valid command line proceeds. -/
theorem spec_c6_witness :
    startup ["export-to-postgresql.py", "pt_example", "rows"] = [.usageAbort] ∧
    startup ["export-to-postgresql.py", "pt_example", "branches", "calls"] =
      [.mkdirOutputDir, .createDatabase "pt_example", .createSchema] := by
  constructor
  · exact (spec_c6_cli_validation _).2.1 rfl
  · exact (spec_c6_cli_validation _).2.2
      ⟨"pt_example", true, true, false⟩ rfl


theorem rowOk_num_fields (fs : List FieldVal)
    (h : (fs.all fun f => decide (fieldWidth f < 2 ^ 32)) = true)
    (hlen : fs.length < 2 ^ 16) : rowOk (encodeRow fs) = true :=
  rowOk_encodeRow fs (widths_of_all fs h) hlen

theorem rowOk_evsel_table (id : Int) (name : List Nat) (h : name.length < 2 ^ 32) :
    rowOk (evsel_table id name) = true := by
  rw [evsel_table_eq]
  refine rowOk_encodeRow _ ?_ (by norm_num)
  intro f hf
  rcases List.mem_cons.mp hf with rfl | hf
  · norm_num [fieldWidth]
  rcases List.mem_singleton.mp hf with rfl
  simpa [fieldWidth] using h

theorem rowOk_machine_table (id pid : Int) (rd : List Nat) (h : rd.length < 2 ^ 32) :
    rowOk (machine_table id pid rd) = true := by
  rw [machine_table_eq]
  refine rowOk_encodeRow _ ?_ (by norm_num)
  intro f hf
  rcases List.mem_cons.mp hf with rfl | hf
  · norm_num [fieldWidth]
  rcases List.mem_cons.mp hf with rfl | hf
  · norm_num [fieldWidth]
  rcases List.mem_singleton.mp hf with rfl
  simpa [fieldWidth] using h

theorem rowOk_comm_table (id : Int) (s : List Nat) (h : s.length < 2 ^ 32) :
    rowOk (comm_table id s) = true := by
  rw [comm_table_eq]
  refine rowOk_encodeRow _ ?_ (by norm_num)
  intro f hf
  rcases List.mem_cons.mp hf with rfl | hf
  · norm_num [fieldWidth]
  rcases List.mem_singleton.mp hf with rfl
  simpa [fieldWidth] using h

theorem rowOk_dso_table (id m : Int) (sn ln bid : List Nat)
    (h1 : sn.length < 2 ^ 32) (h2 : ln.length < 2 ^ 32) (h3 : bid.length < 2 ^ 32) :
    rowOk (dso_table id m sn ln bid) = true := by
  rw [dso_table_eq]
  refine rowOk_encodeRow _ ?_ (by norm_num)
  intro f hf
  rcases List.mem_cons.mp hf with rfl | hf
  · norm_num [fieldWidth]
  rcases List.mem_cons.mp hf with rfl | hf
  · norm_num [fieldWidth]
  rcases List.mem_cons.mp hf with rfl | hf
  · simpa [fieldWidth] using h1
  rcases List.mem_cons.mp hf with rfl | hf
  · simpa [fieldWidth] using h2
  rcases List.mem_singleton.mp hf with rfl
  simpa [fieldWidth] using h3

theorem rowOk_symbol_table (id d ss se bind : Int) (name : List Nat)
    (h : name.length < 2 ^ 32) : rowOk (symbol_table id d ss se bind name) = true := by
  rw [symbol_table_eq]
  refine rowOk_encodeRow _ ?_ (by norm_num)
  intro f hf
  rcases List.mem_cons.mp hf with rfl | hf
  · norm_num [fieldWidth]
  rcases List.mem_cons.mp hf with rfl | hf
  · norm_num [fieldWidth]
  rcases List.mem_cons.mp hf with rfl | hf
  · norm_num [fieldWidth]
  rcases List.mem_cons.mp hf with rfl | hf
  · norm_num [fieldWidth]
  rcases List.mem_cons.mp hf with rfl | hf
  · norm_num [fieldWidth]
  rcases List.mem_singleton.mp hf with rfl
  simpa [fieldWidth] using h

theorem rowOk_branch_type_table (id : Int) (name : List Nat)
    (h : name.length < 2 ^ 32) : rowOk (branch_type_table id name) = true := by
  rw [branch_type_table_eq]
  refine rowOk_encodeRow _ ?_ (by norm_num)
  intro f hf
  rcases List.mem_cons.mp hf with rfl | hf
  · norm_num [fieldWidth]
  rcases List.mem_singleton.mp hf with rfl
  simpa [fieldWidth] using h

set_option maxRecDepth 4000 in
theorem trace_begin_rowOk (cfg : Config) :
    ∀ w ∈ trace_begin cfg, rowOk w.2 = true := by
  obtain ⟨d, b, c, cc⟩ := cfg
  have hall : ((trace_begin ⟨d, b, c, cc⟩).all fun w => rowOk w.2) = true := by
    cases b <;> cases c <;> cases cc <;> rfl
  exact fun w hw => List.all_eq_true.mp hall w hw

theorem eventWrites_rowOk (cfg : Config) (e : Event) (he : e.wf) :
    ∀ w ∈ eventWrites cfg e, rowOk w.2 = true := by
  cases e with
  | evsel id name =>
    intro w hw
    rcases List.mem_singleton.mp hw with rfl
    exact rowOk_evsel_table id name he
  | machine id pid rd =>
    intro w hw
    rcases List.mem_singleton.mp hw with rfl
    exact rowOk_machine_table id pid rd he
  | thread id m p pid tid =>
    intro w hw
    rcases List.mem_singleton.mp hw with rfl
    rw [show (Table.threads, thread_table id m p pid tid).2 =
      thread_table id m p pid tid from rfl, thread_table_eq]
    exact rowOk_num_fields _ rfl (by norm_num)
  | comm id s =>
    intro w hw
    rcases List.mem_singleton.mp hw with rfl
    exact rowOk_comm_table id s he
  | comm_thread id cid tid =>
    intro w hw
    rcases List.mem_singleton.mp hw with rfl
    rw [show (Table.comm_threads, comm_thread_table id cid tid).2 =
      comm_thread_table id cid tid from rfl, comm_thread_table_eq]
    exact rowOk_num_fields _ rfl (by norm_num)
  | dso id m sn ln bid =>
    intro w hw
    rcases List.mem_singleton.mp hw with rfl
    exact rowOk_dso_table id m sn ln bid he.1 he.2.1 he.2.2
  | symbol id d2 ss se bind name =>
    intro w hw
    rcases List.mem_singleton.mp hw with rfl
    exact rowOk_symbol_table id d2 ss se bind name he
  | branch_type id name =>
    intro w hw
    rcases List.mem_singleton.mp hw with rfl
    exact rowOk_branch_type_table id name he
  | sample args =>
    intro w hw
    rcases h : sample_table cfg.branches args with _ | row
    · rw [eventWrites, h] at hw
      exact absurd hw (List.not_mem_nil w)
    · rw [eventWrites, h] at hw
      rcases List.mem_singleton.mp hw with rfl
      exact (sample_table_some _ _ _ h).2
  | call_path id p s2 ip =>
    intro w hw
    rw [eventWrites] at hw
    by_cases hf : (cfg.exportCalls || cfg.exportCallchains) = true
    · rw [if_pos hf] at hw
      rcases List.mem_singleton.mp hw with rfl
      rw [show (Table.call_paths, call_path_table id p s2 ip).2 =
        call_path_table id p s2 ip from rfl, call_path_table_eq]
      exact rowOk_num_fields _ rfl (by norm_num)
    · rw [if_neg hf] at hw
      exact absurd hw (List.not_mem_nil w)
  | call_return a b2 c2 d2 e2 f2 g2 h2 i2 j2 k2 =>
    intro w hw
    rw [eventWrites] at hw
    by_cases hf : cfg.exportCalls = true
    · rw [if_pos hf] at hw
      rcases List.mem_singleton.mp hw with rfl
      rw [show (Table.calls, call_return_table a b2 c2 d2 e2 f2 g2 h2 i2 j2 k2).2 =
        call_return_table a b2 c2 d2 e2 f2 g2 h2 i2 j2 k2 from rfl, call_return_table_eq]
      exact rowOk_num_fields _ rfl (by norm_num)
    · rw [if_neg hf] at hw
      exact absurd hw (List.not_mem_nil w)
  | unhandled =>
    intro w hw
    exact absurd hw (List.not_mem_nil w)

/-- C3: each staging file is exactly a 19-byte header (the 11-byte PGCOPY
magic followed by two 32-bit zero words) written at open, then one record
per row — a 16-bit field count followed, per field, by a 32-bit byte-length
header and that many content bytes (8 bytes for 64-bit ids, 4 for 32-bit
integers, 1 for booleans, the string length for text) — then the 2-byte end
marker appended at seal. -/
theorem spec_c3_wire_format :
    (file_header.length = 19 ∧ file_header.take 11 = pgcopy_magic ∧
      pgcopy_magic.length = 11 ∧ file_header.drop 11 = List.replicate 8 0 ∧
      file_trailer = [255, 255]) ∧
    (∀ (cfg : Config) (evs : List Event) (t : Table) (bytes : List Nat),
      stagingFile cfg evs t = some bytes →
      bytes = file_header ++
        (((runWrites cfg evs).filter fun w => w.1 == t).map Prod.snd).flatten ++
        file_trailer) ∧
    (∀ (cfg : Config) (evs : List Event), (∀ e ∈ evs, e.wf) →
      ∀ w ∈ runWrites cfg evs, rowOk w.2 = true) ∧
    (∀ (id : Int) (name : List Nat), evsel_table id name = encodeRow [.num 8 id, .str name]) ∧
    (∀ (id pid : Int) (rd : List Nat),
      machine_table id pid rd = encodeRow [.num 8 id, .num 4 pid, .str rd]) ∧
    (∀ id m p pid tid : Int, thread_table id m p pid tid =
      encodeRow [.num 8 id, .num 8 m, .num 8 p, .num 4 pid, .num 4 tid]) ∧
    (∀ (id : Int) (s : List Nat), comm_table id s = encodeRow [.num 8 id, .str s]) ∧
    (∀ id c2 t2 : Int, comm_thread_table id c2 t2 =
      encodeRow [.num 8 id, .num 8 c2, .num 8 t2]) ∧
    (∀ (id m : Int) (sn ln bid : List Nat), dso_table id m sn ln bid =
      encodeRow [.num 8 id, .num 8 m, .str sn, .str ln, .str bid]) ∧
    (∀ (id d ss se bind : Int) (name : List Nat), symbol_table id d ss se bind name =
      encodeRow [.num 8 id, .num 8 d, .num 8 ss, .num 8 se, .num 4 bind, .str name]) ∧
    (∀ (id : Int) (name : List Nat),
      branch_type_table id name = encodeRow [.num 4 id, .str name]) ∧
    (∀ id p s2 ip : Int, call_path_table id p s2 ip =
      encodeRow [.num 8 id, .num 8 p, .num 8 s2, .num 8 ip]) ∧
    (∀ a b2 c2 d2 e2 f2 g2 h2 i2 j2 k2 : Int,
      call_return_table a b2 c2 d2 e2 f2 g2 h2 i2 j2 k2 =
        encodeRow [.num 8 a, .num 8 b2, .num 8 c2, .num 8 d2, .num 8 e2, .num 8 f2,
          .num 8 g2, .num 8 h2, .num 8 i2, .num 8 j2, .num 4 k2]) := by
  refine ⟨⟨by decide, by decide, by decide, by decide, rfl⟩, ?_, ?_,
    evsel_table_eq, machine_table_eq, thread_table_eq, comm_table_eq,
    comm_thread_table_eq, dso_table_eq, symbol_table_eq, branch_type_table_eq,
    call_path_table_eq, call_return_table_eq⟩
  · intro cfg evs t bytes h
    rw [stagingFile] at h
    by_cases hf : tableHasFile cfg t = true
    · rw [if_pos hf] at h
      exact (Option.some.inj h).symm
    · rw [if_neg hf] at h
      exact absurd h (by simp)
  · intro cfg evs hwf w hw
    rw [runWrites] at hw
    rcases List.mem_append.mp hw with h | h
    · exact trace_begin_rowOk cfg w h
    · rcases List.mem_flatten.mp h with ⟨l, hl, hwl⟩
      rcases List.mem_map.mp hl with ⟨e, he, rfl⟩
      exact eventWrites_rowOk cfg e (hwf e he) w hwl

/-- C3 witness: a concrete comm row written during a concrete run parses as
one well-formed record. -/
theorem spec_c3_witness :
    rowOk (comm_table 1 (strBytes "bash")) = true :=
  spec_c3_wire_format.2.2.1 ⟨"pt_example", false, false, false⟩
    [.comm 1 (strBytes "bash")]
    (by
      intro e he
      rcases List.mem_singleton.mp he with rfl
      show (strBytes "bash").length < 2 ^ 32
      decide)
    (Table.comms, comm_table 1 (strBytes "bash"))
    (by
      rw [runWrites]
      exact List.mem_append.mpr (Or.inr (by decide)))

end PerfExport
